import Mathlib

/-!
Verification of the Merton structural credit model repository.

The repository computes, per firm-date observation, latent asset value `V`
and asset volatility `sigma_V` from observed equity data by solving a
two-equation Black-Scholes system (`naive_model/calibration.py`), then
derives distance-to-default and default probability
(`naive_model/risk_measures.py`).  The option-pricing primitives live in
`naive_model/model.py`; per-record orchestration lives in
`naive_model/__main__.py` and `improved/__main__.py`.

Modelling choices:
* machine floats are modelled by real numbers `ℝ`;
* `scipy.stats.norm.cdf` is modelled by `stdNormalCDF`, the mathematical
  standard normal cumulative distribution function, defined below as a
  Gaussian integral;
* `scipy.optimize.fsolve` is an external iterative solver: the calibration
  function is parameterised by an abstract `solver` argument of the same
  shape (a root-finder receiving the residual function, the initial guess
  and the tolerance, returning a point).  Every structural theorem below is
  proved for an arbitrary solver, hence holds for `fsolve` in particular;
* the orchestration layer's `np.isnan` checks inspect IEEE NaN values
  produced by the external solver; the calibrated float pair is modelled at
  that layer by `NumVal` (a real number or NaN) supplied by an abstract
  calibration oracle.
-/

open MeasureTheory Real

/-- Standard normal cumulative distribution function, the mathematical model
of `scipy.stats.norm.cdf`. -/
noncomputable def stdNormalCDF (x : ℝ) : ℝ :=
  (Real.sqrt (2 * Real.pi))⁻¹ * ∫ t in Set.Iic x, Real.exp (-(t ^ 2) / 2)

/-- Source `naive_model/model.py`, `black_scholes_call`:
`d1 = (np.log(S / K) + (r + 0.5 * sigma**2) * T) / (sigma * np.sqrt(T))`,
`d2 = d1 - sigma * np.sqrt(T)`, result
`S * norm.cdf(d1) - K * np.exp(-r * T) * norm.cdf(d2)`. -/
noncomputable def black_scholes_call (S K T r sigma : ℝ) : ℝ :=
  let d1 := (Real.log (S / K) + (r + 0.5 * sigma ^ 2) * T) / (sigma * Real.sqrt T)
  let d2 := d1 - sigma * Real.sqrt T
  S * stdNormalCDF d1 - K * Real.exp (-r * T) * stdNormalCDF d2

/-- Source `naive_model/model.py`, `black_scholes_delta`: returns
`norm.cdf(d1)` with the same `d1` as `black_scholes_call`. -/
noncomputable def black_scholes_delta (S K T r sigma : ℝ) : ℝ :=
  let d1 := (Real.log (S / K) + (r + 0.5 * sigma ^ 2) * T) / (sigma * Real.sqrt T)
  stdNormalCDF d1

/-- Source `naive_model/risk_measures.py`, `distance_to_default`, local
`expected_asset_value = V * np.exp(r * T)`. -/
noncomputable def expected_asset_value (V r T : ℝ) : ℝ :=
  V * Real.exp (r * T)

/-- Source `naive_model/risk_measures.py`, `distance_to_default`, local
`std_asset_value = expected_asset_value * np.sqrt(np.exp(sigma_V**2 * T) - 1)`. -/
noncomputable def std_asset_value (V r T sigma_V : ℝ) : ℝ :=
  expected_asset_value V r T * Real.sqrt (Real.exp (sigma_V ^ 2 * T) - 1)

/-- Source `naive_model/risk_measures.py`, `distance_to_default`: if
`std_asset_value < 1e-8`, return `np.inf` when `expected_asset_value > D`
and `-np.inf` otherwise; else `(expected_asset_value - D) / std_asset_value`.
The codomain `EReal` models `float` including the two infinities. -/
noncomputable def distance_to_default (V D T r sigma_V : ℝ) : EReal :=
  if std_asset_value V r T sigma_V < 1e-8 then
    (if D < expected_asset_value V r T then (⊤ : EReal) else (⊥ : EReal))
  else
    ((expected_asset_value V r T - D) / std_asset_value V r T sigma_V : ℝ)

/-- Source `naive_model/risk_measures.py`, `default_probability`:
`d2 = (np.log(V / D) + (r - 0.5 * sigma_V**2) * T) / (sigma_V * np.sqrt(T))`,
result `norm.cdf(-d2)`.  The body is a single unconditional formula: there
is no guard against `sigma_V = 0` or `T = 0` anywhere in this function. -/
noncomputable def default_probability (V D T r sigma_V : ℝ) : ℝ :=
  let numerator := Real.log (V / D) + (r - 0.5 * sigma_V ^ 2) * T
  let denominator := sigma_V * Real.sqrt T
  let d2 := numerator / denominator
  stdNormalCDF (-d2)

/-- Risk-measure pair returned by `compute_risk_measures`. -/
structure RiskMeasures where
  DD : EReal
  PD : ℝ

/-- Source `naive_model/risk_measures.py`, `compute_risk_measures`: the
dictionary with keys `DD` and `PD`. -/
noncomputable def compute_risk_measures (V D T r sigma_V : ℝ) : RiskMeasures :=
  { DD := distance_to_default V D T r sigma_V
    PD := default_probability V D T r sigma_V }

/-- Failure kinds named by the specification's error taxonomy
(InvalidInput, NonConvergent). -/
inductive FailureKind where
  | invalidInput
  | nonConvergent
deriving DecidableEq

/-- Outcome type for calibration: either a calibrated pair or a reported
failure.  The source function `calibrate_asset_parameters` in
`naive_model/calibration.py` in fact has no failure path; embedding its
result into this richer type lets the presence or absence of failure
reports be stated. -/
inductive CalibrationResult where
  | ok (V sigma_V : ℝ)
  | failure (kind : FailureKind)

/-- Shape of a multivariate root-finder as used by the source:
`fsolve(equations, [V0, sigma_V0], xtol=1e-6)` receives the residual
function, the initial guess and the tolerance, and returns a point.  The
source requests no convergence flag (`full_output` is not passed), so the
solver's output is just the point. -/
def SolverT : Type :=
  ((ℝ × ℝ) → (ℝ × ℝ)) → (ℝ × ℝ) → ℝ → (ℝ × ℝ)

/-- Source `naive_model/calibration.py`, inner function `equations`: given a
candidate `params = (V, sigma_V)`, take absolute values
(`V = np.abs(V)`, `sigma_V = np.abs(sigma_V)`), compute
`eq1 = black_scholes_call(V, D, T, r, sigma_V) - E` and, with
`delta = black_scholes_delta(V, D, T, r, sigma_V)`,
`eq2 = E_vol_calc - sigma_E` where `E_vol_calc = (V / E) * delta * sigma_V`
if `E > 1e-8` and `sigma_V` otherwise. -/
noncomputable def equations (E sigma_E D T r : ℝ) (params : ℝ × ℝ) : ℝ × ℝ :=
  let V := |params.1|
  let sigma_V := |params.2|
  let E_calc := black_scholes_call V D T r sigma_V
  let eq1 := E_calc - E
  let delta := black_scholes_delta V D T r sigma_V
  let E_vol_calc := if E > 1e-8 then (V / E) * delta * sigma_V else sigma_V
  let eq2 := E_vol_calc - sigma_E
  (eq1, eq2)

/-- Source `naive_model/calibration.py`, `calibrate_asset_parameters`:
defaults `V0 = E + D` and
`sigma_V0 = sigma_E * E / (E + D) if (E + D) > 0 else sigma_E`, then
`result = fsolve(equations, [V0, sigma_V0], xtol=1e-6)` and
`return np.abs(V), np.abs(sigma_V)`.  The function is unconditional: no
input validation before the solve, no convergence or positivity check after
it, and no failure-reporting branch of any kind. -/
noncomputable def calibrate_asset_parameters (solver : SolverT)
    (E sigma_E D T r : ℝ) (V0opt sigma_V0opt : Option ℝ) : CalibrationResult :=
  let V0 := V0opt.getD (E + D)
  let sigma_V0 := sigma_V0opt.getD (if E + D > 0 then sigma_E * E / (E + D) else sigma_E)
  let result := solver (equations E sigma_E D T r) (V0, sigma_V0) 1e-6
  .ok |result.1| |result.2|

/-- A float value as inspected by the orchestration layer: a real number or
IEEE NaN.  `np.isnan` is decidable on this model. -/
inductive NumVal where
  | num (x : ℝ)
  | nan

/-- Model of `np.isnan`. -/
def NumVal.isnan : NumVal → Bool
  | .num _ => false
  | .nan => true

/-- Aligned per-firm-per-date observation row as consumed by the `main`
loops (after the out-of-scope merging/forward-filling).  `shares` is the
shares-outstanding figure the improved variant maps onto the row. -/
structure MarketObservation where
  firm_id : String
  date : ℕ
  equity_price : ℝ
  equity_vol : ℝ
  debt : ℝ
  risk_free_rate : ℝ
  shares : ℝ

/-- Result row appended by `naive_model/__main__.py`. -/
structure NaiveResultRecord where
  date : ℕ
  firm_id : String
  V : ℝ
  sigma_V : ℝ
  DD : EReal
  PD : ℝ

/-- Result row appended by `improved/__main__.py`.  Because the improved
loop checks only `np.isnan(V)`, the stored `sigma_V` may itself be NaN, and
the risk measures computed from a NaN `sigma_V` are then NaN as well: the
`Option` codomains model that NaN propagation (`none` = NaN). -/
structure ImprovedResultRecord where
  date : ℕ
  firm_id : String
  share_price : ℝ
  market_cap : ℝ
  V : ℝ
  sigma_V : NumVal
  DD : Option EReal
  PD : Option ℝ

/-- The float-level outcome of `calibrate_asset_parameters(E, sigma_E, D, T, r)`
as seen by the orchestration layer, with NaN made explicit.  It is abstract
here because NaN production is a property of the external iterative solver. -/
def CalibOracle : Type :=
  ℝ → ℝ → ℝ → ℝ → ℝ → NumVal × NumVal

/-- Source `naive_model/__main__.py`, `main`, per-record loop: with `T = 1.0`
and `E = row.equity_price`, call the calibrator; skip the row (`continue`)
when `np.isnan(V) or np.isnan(sigma_V)`; otherwise compute the risk measures
and append the result dictionary. -/
noncomputable def naive_main (calib : CalibOracle)
    (rows : List MarketObservation) : List NaiveResultRecord :=
  rows.filterMap fun row =>
    let E := row.equity_price
    let sigma_E := row.equity_vol
    let D := row.debt
    let r := row.risk_free_rate
    match calib E sigma_E D 1 r with
    | (NumVal.num V, NumVal.num sigma_V) =>
        let risk := compute_risk_measures V D 1 r sigma_V
        some { date := row.date, firm_id := row.firm_id, V := V,
               sigma_V := sigma_V, DD := risk.DD, PD := risk.PD }
    | _ => none

/-- Source `improved/__main__.py`, `main`, per-record loop: with `T = 1.0`
and `E = row.market_equity = row.equity_price * shares`, call the
calibrator; skip the row when `np.isnan(V)` (only `V` is checked); otherwise
compute the risk measures and append the result dictionary including the
passthrough fields `share_price` and `market_cap`. -/
noncomputable def improved_main (calib : CalibOracle)
    (rows : List MarketObservation) : List ImprovedResultRecord :=
  rows.filterMap fun row =>
    let E := row.equity_price * row.shares
    let sigma_E := row.equity_vol
    let D := row.debt
    let r := row.risk_free_rate
    match calib E sigma_E D 1 r with
    | (NumVal.num V, sigma_V) =>
        some { date := row.date, firm_id := row.firm_id,
               share_price := row.equity_price, market_cap := E, V := V,
               sigma_V := sigma_V,
               DD := match sigma_V with
                     | NumVal.num s => some (compute_risk_measures V D 1 r s).DD
                     | NumVal.nan => none,
               PD := match sigma_V with
                     | NumVal.num s => some (compute_risk_measures V D 1 r s).PD
                     | NumVal.nan => none }
    | (NumVal.nan, _) => none

/-- Observation used in concrete counterexamples. -/
def obsA : MarketObservation :=
  { firm_id := "F1", date := 0, equity_price := 100, equity_vol := 0.3,
    debt := 80, risk_free_rate := 0.02, shares := 10 }

/-! ### Properties of the standard normal CDF -/

/-- The standard Gaussian density kernel is integrable on the line. -/
lemma gaussKernel_integrable :
    Integrable (fun t : ℝ => Real.exp (-(t ^ 2) / 2)) := by
  have h := integrable_exp_neg_mul_sq (show (0 : ℝ) < 1 / 2 by norm_num)
  have hfun : (fun t : ℝ => Real.exp (-(t ^ 2) / 2))
      = fun t : ℝ => Real.exp (-(1 / 2) * t ^ 2) := by
    funext t
    congr 1
    ring
  rw [hfun]
  exact h

/-- Total mass of the Gaussian kernel. -/
lemma gaussKernel_integral :
    (∫ t : ℝ, Real.exp (-(t ^ 2) / 2)) = Real.sqrt (2 * Real.pi) := by
  have h := integral_gaussian (1 / 2 : ℝ)
  have hfun : (fun t : ℝ => Real.exp (-(t ^ 2) / 2))
      = fun t : ℝ => Real.exp (-(1 / 2 : ℝ) * t ^ 2) := by
    funext t
    congr 1
    ring
  rw [hfun, h]
  rw [show Real.pi / (1 / 2) = 2 * Real.pi by ring]

/-- Positivity of the normalising constant. -/
lemma sqrt_two_pi_pos : 0 < Real.sqrt (2 * Real.pi) :=
  Real.sqrt_pos.mpr (by positivity)

/-- The standard normal CDF is strictly monotone. -/
lemma stdNormalCDF_strictMono : StrictMono stdNormalCDF := by
  intro a b hab
  unfold stdNormalCDF
  have hInt := gaussKernel_integrable
  have ha : IntegrableOn (fun t : ℝ => Real.exp (-(t ^ 2) / 2)) (Set.Iic a) := hInt.integrableOn
  have hb : IntegrableOn (fun t : ℝ => Real.exp (-(t ^ 2) / 2)) (Set.Iic b) := hInt.integrableOn
  have hdiff : (∫ t in Set.Iic b, Real.exp (-(t ^ 2) / 2))
      - (∫ t in Set.Iic a, Real.exp (-(t ^ 2) / 2))
      = ∫ t in a..b, Real.exp (-(t ^ 2) / 2) :=
    intervalIntegral.integral_Iic_sub_Iic ha hb
  have hpos : 0 < ∫ t in a..b, Real.exp (-(t ^ 2) / 2) :=
    intervalIntegral.intervalIntegral_pos_of_pos hInt.intervalIntegrable
      (fun t => Real.exp_pos _) hab
  have hlt : (∫ t in Set.Iic a, Real.exp (-(t ^ 2) / 2))
      < ∫ t in Set.Iic b, Real.exp (-(t ^ 2) / 2) := by
    nlinarith [hdiff, hpos]
  exact mul_lt_mul_of_pos_left hlt (inv_pos.mpr sqrt_two_pi_pos)

/-- The standard normal CDF is nonnegative. -/
lemma stdNormalCDF_nonneg (x : ℝ) : 0 ≤ stdNormalCDF x := by
  unfold stdNormalCDF
  have h : 0 ≤ ∫ t in Set.Iic x, Real.exp (-(t ^ 2) / 2) :=
    MeasureTheory.setIntegral_nonneg measurableSet_Iic fun t _ => (Real.exp_pos _).le
  exact mul_nonneg (inv_pos.mpr sqrt_two_pi_pos).le h

/-- The standard normal CDF is bounded by one. -/
lemma stdNormalCDF_le_one (x : ℝ) : stdNormalCDF x ≤ 1 := by
  unfold stdNormalCDF
  have h : (∫ t in Set.Iic x, Real.exp (-(t ^ 2) / 2))
      ≤ ∫ t : ℝ, Real.exp (-(t ^ 2) / 2) :=
    MeasureTheory.setIntegral_le_integral gaussKernel_integrable
      (Filter.Eventually.of_forall fun t => (Real.exp_pos _).le)
  calc (Real.sqrt (2 * Real.pi))⁻¹ * ∫ t in Set.Iic x, Real.exp (-(t ^ 2) / 2)
      ≤ (Real.sqrt (2 * Real.pi))⁻¹ * ∫ t : ℝ, Real.exp (-(t ^ 2) / 2) :=
        mul_le_mul_of_nonneg_left h (inv_pos.mpr sqrt_two_pi_pos).le
    _ = 1 := by
        rw [gaussKernel_integral]
        exact inv_mul_cancel₀ sqrt_two_pi_pos.ne'

/-! ### Claim theorems -/

/-- C5: for positive `V`, `D`, `T`, `sigma_V` and any `r`,
`distance_to_default` computes `mu = V * exp (r*T)` and
`s = mu * sqrt (exp (sigma_V^2 * T) - 1)`, returns `+∞` when `s < 1e-8` and
`mu > D`, `-∞` when `s < 1e-8` and `mu ≤ D`, and `(mu - D) / s` otherwise. -/
theorem claim_C5_dd_cases (V D T r sigma_V : ℝ)
    (hV : 0 < V) (hD : 0 < D) (hT : 0 < T) (hs : 0 < sigma_V) :
    expected_asset_value V r T = V * Real.exp (r * T) ∧
    std_asset_value V r T sigma_V
      = V * Real.exp (r * T) * Real.sqrt (Real.exp (sigma_V ^ 2 * T) - 1) ∧
    (std_asset_value V r T sigma_V < 1e-8 → D < expected_asset_value V r T →
      distance_to_default V D T r sigma_V = (⊤ : EReal)) ∧
    (std_asset_value V r T sigma_V < 1e-8 → expected_asset_value V r T ≤ D →
      distance_to_default V D T r sigma_V = (⊥ : EReal)) ∧
    (¬ std_asset_value V r T sigma_V < 1e-8 →
      distance_to_default V D T r sigma_V
        = ((expected_asset_value V r T - D) / std_asset_value V r T sigma_V : ℝ)) := by
  refine ⟨rfl, rfl, ?_, ?_, ?_⟩
  · intro h1 h2
    unfold distance_to_default
    rw [if_pos h1, if_pos h2]
  · intro h1 h2
    unfold distance_to_default
    rw [if_pos h1, if_neg (not_lt.mpr h2)]
  · intro h1
    unfold distance_to_default
    rw [if_neg h1]

/-- Witness for C5 at `(V, D, T, r, sigma_V) = (1, 1, 1, 0, 1)`. -/
theorem claim_C5_dd_cases_witness :
    (0 : ℝ) < 1 ∧ expected_asset_value 1 0 1 = 1 * Real.exp (0 * 1) :=
  ⟨one_pos, (claim_C5_dd_cases 1 1 1 0 1 one_pos one_pos one_pos one_pos).1⟩

/-- C6: for positive `S`, `K`, `T`, `sigma` and any `r`, `black_scholes_call`
equals `S*Φ(d1) - K*exp(-r*T)*Φ(d2)` with
`d1 = (ln(S/K) + (r + sigma^2/2)*T)/(sigma*sqrt T)`, `d2 = d1 - sigma*sqrt T`,
and `black_scholes_delta` equals `Φ(d1)`, `Φ` being the standard normal CDF.
Both are pure functions of their arguments. -/
theorem claim_C6_bs_formulas (S K T r sigma : ℝ)
    (hS : 0 < S) (hK : 0 < K) (hT : 0 < T) (hs : 0 < sigma) :
    black_scholes_call S K T r sigma
      = S * stdNormalCDF ((Real.log (S / K) + (r + sigma ^ 2 / 2) * T) / (sigma * Real.sqrt T))
        - K * Real.exp (-r * T) * stdNormalCDF
            ((Real.log (S / K) + (r + sigma ^ 2 / 2) * T) / (sigma * Real.sqrt T)
              - sigma * Real.sqrt T) ∧
    black_scholes_delta S K T r sigma
      = stdNormalCDF ((Real.log (S / K) + (r + sigma ^ 2 / 2) * T) / (sigma * Real.sqrt T)) := by
  have harg : (r + 0.5 * sigma ^ 2) = (r + sigma ^ 2 / 2) := by ring
  constructor
  · unfold black_scholes_call
    rw [harg]
  · unfold black_scholes_delta
    rw [harg]

/-- Witness for C6 at `(S, K, T, r, sigma) = (1, 1, 1, 0, 1)`. -/
theorem claim_C6_bs_formulas_witness :
    (0 : ℝ) < 1 ∧
    black_scholes_delta 1 1 1 0 1
      = stdNormalCDF ((Real.log (1 / 1) + (0 + 1 ^ 2 / 2) * 1) / (1 * Real.sqrt 1)) :=
  ⟨one_pos, (claim_C6_bs_formulas 1 1 1 0 1 one_pos one_pos one_pos one_pos).2⟩

/-- C7: for positive `V`, `D`, `T`, `sigma_V` and any `r`,
`default_probability` equals `Φ(-d2)` with
`d2 = (ln(V/D) + (r - sigma_V^2/2)*T)/(sigma_V*sqrt T)`, and the returned
probability lies in `[0, 1]`.  (The definition of `default_probability` is a
single unconditional formula: no guard on `sigma_V` or `T` exists in it.) -/
theorem claim_C7_pd_formula (V D T r sigma_V : ℝ)
    (hV : 0 < V) (hD : 0 < D) (hT : 0 < T) (hs : 0 < sigma_V) :
    default_probability V D T r sigma_V
      = stdNormalCDF
          (-((Real.log (V / D) + (r - sigma_V ^ 2 / 2) * T) / (sigma_V * Real.sqrt T))) ∧
    0 ≤ default_probability V D T r sigma_V ∧
    default_probability V D T r sigma_V ≤ 1 := by
  have harg : (r - 0.5 * sigma_V ^ 2) = (r - sigma_V ^ 2 / 2) := by ring
  refine ⟨?_, ?_, ?_⟩
  · unfold default_probability
    rw [harg]
  · unfold default_probability
    exact stdNormalCDF_nonneg _
  · unfold default_probability
    exact stdNormalCDF_le_one _

/-- Witness for C7 at `(V, D, T, r, sigma_V) = (1, 1, 1, 0, 1)`. -/
theorem claim_C7_pd_formula_witness :
    (0 : ℝ) < 1 ∧ 0 ≤ default_probability 1 1 1 0 1 :=
  ⟨one_pos, (claim_C7_pd_formula 1 1 1 0 1 one_pos one_pos one_pos one_pos).2.1⟩

/-- C8: `default_probability` is strictly increasing in `D` and strictly
decreasing in `V` (all other arguments fixed and positive). -/
theorem claim_C8_pd_monotone (V₁ V₂ D₁ D₂ T r sigma_V : ℝ)
    (hV₁ : 0 < V₁) (hV₁₂ : V₁ < V₂) (hD₁ : 0 < D₁) (hD₁₂ : D₁ < D₂)
    (hT : 0 < T) (hs : 0 < sigma_V) :
    default_probability V₁ D₁ T r sigma_V < default_probability V₁ D₂ T r sigma_V ∧
    default_probability V₂ D₁ T r sigma_V < default_probability V₁ D₁ T r sigma_V := by
  have hden : 0 < sigma_V * Real.sqrt T := mul_pos hs (Real.sqrt_pos.mpr hT)
  have hD₂ : 0 < D₂ := hD₁.trans hD₁₂
  have hV₂ : 0 < V₂ := hV₁.trans hV₁₂
  constructor
  · unfold default_probability
    apply stdNormalCDF_strictMono
    apply neg_lt_neg
    rw [div_lt_div_iff_of_pos_right hden]
    have hlog : Real.log (V₁ / D₂) < Real.log (V₁ / D₁) := by
      rw [Real.log_div hV₁.ne' hD₂.ne', Real.log_div hV₁.ne' hD₁.ne']
      have := Real.log_lt_log hD₁ hD₁₂
      linarith
    linarith
  · unfold default_probability
    apply stdNormalCDF_strictMono
    apply neg_lt_neg
    rw [div_lt_div_iff_of_pos_right hden]
    have hlog : Real.log (V₁ / D₁) < Real.log (V₂ / D₁) := by
      rw [Real.log_div hV₁.ne' hD₁.ne', Real.log_div hV₂.ne' hD₁.ne']
      have := Real.log_lt_log hV₁ hV₁₂
      linarith
    linarith

/-- Witness for C8 at `(V₁, V₂, D₁, D₂, T, r, sigma_V) = (1, 2, 1, 2, 1, 0, 1)`. -/
theorem claim_C8_pd_monotone_witness :
    (0 : ℝ) < 1 ∧ (1 : ℝ) < 2 ∧
    default_probability 1 1 1 0 1 < default_probability 1 2 1 0 1 :=
  ⟨one_pos, one_lt_two,
    (claim_C8_pd_monotone 1 2 1 2 1 0 1 one_pos one_lt_two one_pos one_lt_two
      one_pos one_pos).1⟩

/-- C1 counterexample: on the input `(E, sigma_E, D, T, r) = (0, 0.3, 100, 1, 0.02)`
of the claim, `calibrate_asset_parameters` does not report any failure: it
invokes the solver (here a solver returning its initial guess, standing for
an arbitrary root-finder) and returns `ok (100, 0)`. -/
theorem claim_C1_counterexample :
    calibrate_asset_parameters (fun _ x0 _ => x0) 0 0.3 100 1 0.02 none none
      = CalibrationResult.ok 100 0 := by
  unfold calibrate_asset_parameters
  norm_num

/-- C1 amended: `calibrate_asset_parameters` has no input-validation guard:
for every input — including any with `E ≤ 0`, `sigma_E ≤ 0`, `D ≤ 0` or
`T ≤ 0` — it invokes the solver on the residual system from the default
initial guess and returns the `ok` value built from the solver's output; no
`InvalidInput` report exists. -/
theorem claim_C1_no_input_guard (solver : SolverT) (E sigma_E D T r : ℝ) :
    calibrate_asset_parameters solver E sigma_E D T r none none
      = CalibrationResult.ok
          |(solver (equations E sigma_E D T r)
              (E + D, if E + D > 0 then sigma_E * E / (E + D) else sigma_E) 1e-6).1|
          |(solver (equations E sigma_E D T r)
              (E + D, if E + D > 0 then sigma_E * E / (E + D) else sigma_E) 1e-6).2| :=
  rfl

/-- C2 counterexample: with a solver whose output is `(0, 0)`,
`calibrate_asset_parameters` returns the success value `ok (0, 0)` although
the returned `V = 0` is not strictly positive — success is not restricted to
converged, strictly positive pairs, and no `NonConvergent` report occurs. -/
theorem claim_C2_counterexample :
    calibrate_asset_parameters (fun _ _ _ => (0, 0)) 100 0.3 80 1 0.02 none none
      = CalibrationResult.ok 0 0 ∧ ¬ (0 : ℝ) > 0 := by
  constructor
  · unfold calibrate_asset_parameters
    norm_num
  · norm_num

/-- C2 amended: `calibrate_asset_parameters` performs no post-solve
validation at all: whatever point the solver returns, the result is an `ok`
value, and neither `NonConvergent` nor any other failure is ever reported
(the source calls `fsolve` without `full_output`, so no convergence flag is
even available to it). -/
theorem claim_C2_no_postsolve_check (solver : SolverT) (E sigma_E D T r : ℝ)
    (V0opt sigma_V0opt : Option ℝ) (k : FailureKind) :
    calibrate_asset_parameters solver E sigma_E D T r V0opt sigma_V0opt
      ≠ CalibrationResult.failure k := by
  unfold calibrate_asset_parameters
  simp

/-- A call price never exceeds the underlying price (used to bound residuals). -/
lemma black_scholes_call_le_underlying (S K T r sigma : ℝ)
    (hS : 0 ≤ S) (hK : 0 ≤ K) :
    black_scholes_call S K T r sigma ≤ S := by
  unfold black_scholes_call
  have h1 := stdNormalCDF_le_one
    ((Real.log (S / K) + (r + 0.5 * sigma ^ 2) * T) / (sigma * Real.sqrt T))
  have h2 := stdNormalCDF_nonneg
    ((Real.log (S / K) + (r + 0.5 * sigma ^ 2) * T) / (sigma * Real.sqrt T)
      - sigma * Real.sqrt T)
  have h3 := (Real.exp_pos (-r * T)).le
  have h4 := stdNormalCDF_nonneg
    ((Real.log (S / K) + (r + 0.5 * sigma ^ 2) * T) / (sigma * Real.sqrt T))
  nlinarith [mul_nonneg (mul_nonneg hK h3) h2]

/-- C3 counterexample: at the invalid candidate `(V, sigma_V) = (-1, -0.5)`
(so `V ≤ 0`) with `(E, sigma_E, D, T, r) = (100, 0.3, 80, 1, 0.02)`, the
first residual of `equations` is negative — the pricing primitives are
evaluated (at the absolute values) and no large fixed residual `1e6` is
returned. -/
theorem claim_C3_counterexample :
    (equations 100 0.3 80 1 0.02 (-1, -0.5)).1 < 0 ∧
    (equations 100 0.3 80 1 0.02 (-1, -0.5)).1 ≠ 1e6 := by
  have habs1 : |(-1 : ℝ)| = 1 := by norm_num
  have habs2 : |(-0.5 : ℝ)| = 0.5 := by rw [abs_of_neg] <;> norm_num
  have hcall : black_scholes_call 1 80 1 0.02 0.5 ≤ 1 :=
    black_scholes_call_le_underlying 1 80 1 0.02 0.5 (by norm_num) (by norm_num)
  have hlt : (equations 100 0.3 80 1 0.02 (-1, -0.5)).1 < 0 := by
    show black_scholes_call |(-1 : ℝ)| 80 1 0.02 |(-0.5 : ℝ)| - 100 < 0
    rw [habs1, habs2]
    linarith
  refine ⟨hlt, ?_⟩
  intro h
  rw [h] at hlt
  norm_num at hlt

/-- C3 amended: the residual function contains no large-fixed-residual
branch; an invalid candidate with `V ≤ 0` or `sigma_V ≤ 0` is instead folded
to `(|V|, |sigma_V|)` and the pricing primitives are evaluated there, so the
residual at the invalid candidate coincides with the residual at the
absolute values. -/
theorem claim_C3_abs_fold (E sigma_E D T r V sigma_V : ℝ)
    (h : V ≤ 0 ∨ sigma_V ≤ 0) :
    equations E sigma_E D T r (V, sigma_V)
      = equations E sigma_E D T r (|V|, |sigma_V|) := by
  unfold equations
  rw [abs_abs, abs_abs]

/-- Witness for the amended C3 at the candidate `(-1, -0.5)`. -/
theorem claim_C3_abs_fold_witness :
    ((-1 : ℝ) ≤ 0 ∨ (-0.5 : ℝ) ≤ 0) ∧
    equations 100 0.3 80 1 0.02 (-1, -0.5)
      = equations 100 0.3 80 1 0.02 (|(-1 : ℝ)|, |(-0.5 : ℝ)|) :=
  ⟨Or.inl (by norm_num),
    claim_C3_abs_fold 100 0.3 80 1 0.02 (-1) (-0.5) (Or.inl (by norm_num))⟩

/-- C10: for every solver and every input, the calibration result is the
success value built by taking absolute values of the two components of the
solver's output; both returned components are therefore nonnegative, and a
negative solver iterate is folded into a nonnegative result rather than
surfaced as a failure. -/
theorem claim_C10_abs_result (solver : SolverT) (E sigma_E D T r : ℝ)
    (V0opt sigma_V0opt : Option ℝ) :
    ∃ p : ℝ × ℝ,
      p = solver (equations E sigma_E D T r)
            (V0opt.getD (E + D),
              sigma_V0opt.getD (if E + D > 0 then sigma_E * E / (E + D) else sigma_E))
            1e-6 ∧
      calibrate_asset_parameters solver E sigma_E D T r V0opt sigma_V0opt
        = CalibrationResult.ok |p.1| |p.2| ∧
      0 ≤ |p.1| ∧ 0 ≤ |p.2| :=
  ⟨_, rfl, rfl, abs_nonneg _, abs_nonneg _⟩

/-- C4 counterexample: (i) when the calibrated pair is `(0, 0)` — not
strictly positive — the naive loop still emits a record, so emission is not
equivalent to convergence to a strictly positive pair; (ii) on the very same
calibration outcome `(V = 1, sigma_V = NaN)` the naive loop drops the
observation while the improved loop emits a record, so the per-record policy
is not identical across the two variants. -/
theorem claim_C4_counterexample :
    (naive_main (fun _ _ _ _ _ => (NumVal.num 0, NumVal.num 0)) [obsA]).length = 1 ∧
    ¬ (0 : ℝ) > 0 ∧
    naive_main (fun _ _ _ _ _ => (NumVal.num 1, NumVal.nan)) [obsA] = [] ∧
    (improved_main (fun _ _ _ _ _ => (NumVal.num 1, NumVal.nan)) [obsA]).length = 1 := by
  refine ⟨?_, by norm_num, ?_, ?_⟩ <;> simp [naive_main, improved_main]

/-- C4 amended: a result record is emitted for an observation exactly when
the calibrated components are not NaN — both `V` and `sigma_V` in the naive
variant, but only `V` in the improved variant; NaN outcomes are silently
dropped.  Strict positivity of the pair is not required for emission, and
the two variants' per-record policies differ in the `sigma_V` NaN check. -/
theorem claim_C4_emission (calib : CalibOracle) (rows : List MarketObservation) :
    (naive_main calib rows).length
      = (rows.filter fun row =>
          !(calib row.equity_price row.equity_vol row.debt 1 row.risk_free_rate).1.isnan
            && !(calib row.equity_price row.equity_vol row.debt 1 row.risk_free_rate).2.isnan).length ∧
    (improved_main calib rows).length
      = (rows.filter fun row =>
          !(calib (row.equity_price * row.shares) row.equity_vol row.debt 1
              row.risk_free_rate).1.isnan).length := by
  induction rows with
  | nil => exact ⟨rfl, rfl⟩
  | cons row rest ih =>
    obtain ⟨ih1, ih2⟩ := ih
    constructor
    · rcases hc : calib row.equity_price row.equity_vol row.debt 1 row.risk_free_rate
        with ⟨a, b⟩
      cases a <;> cases b <;>
        simp [naive_main, List.filterMap_cons, List.filter_cons, hc, NumVal.isnan,
          naive_main] at ih1 ⊢ <;>
        omega
    · rcases hc : calib (row.equity_price * row.shares) row.equity_vol row.debt 1
        row.risk_free_rate with ⟨a, b⟩
      cases a <;>
        simp [improved_main, List.filterMap_cons, List.filter_cons, hc,
          NumVal.isnan] at ih2 ⊢ <;>
        omega

/-- Supporting fact for the round-trip scenario of the specification: when
`E` and `sigma_E` are produced from a pair `(V, sigma_V)` by the pricing
primitives, the residual system of the calibrator vanishes exactly at
`(V, sigma_V)`.  Whether the external iterative solver reaches this root is
a numerical property of `scipy.optimize.fsolve` and is not settled here. -/
lemma equations_roundtrip_root (V sigma_V D T r : ℝ) (hV : 0 < V) (hs : 0 < sigma_V)
    (hE : black_scholes_call V D T r sigma_V > 1e-8) :
    equations (black_scholes_call V D T r sigma_V)
      (black_scholes_delta V D T r sigma_V * sigma_V * V
        / black_scholes_call V D T r sigma_V)
      D T r (V, sigma_V) = (0, 0) := by
  show
    (black_scholes_call |V| D T r |sigma_V| - black_scholes_call V D T r sigma_V,
      (if black_scholes_call V D T r sigma_V > 1e-8 then
        (|V| / black_scholes_call V D T r sigma_V)
          * black_scholes_delta |V| D T r |sigma_V| * |sigma_V|
      else |sigma_V|)
        - black_scholes_delta V D T r sigma_V * sigma_V * V
            / black_scholes_call V D T r sigma_V) = (0, 0)
  rw [abs_of_pos hV, abs_of_pos hs, if_pos hE]
  simp only [Prod.mk.injEq]
  constructor
  · ring
  · ring
